import Mathlib

/-!
Verification of the `VLC::MediaList` handle wrapper (src/src/MediaList.hpp).

The wrapper forwards every operation to the external libvlc media-list
engine through an opaque `libvlc_media_list_t*`.  The engine itself is not
part of this repository, so its behaviour is modelled from the
specification (sections 4.1, 6, 7 of spec.md and the doc comments in the
header); every such definition carries a doc comment starting with
`Modelled from the spec:`.  The wrapper methods themselves are translated
line by line from the header.

Raw C pointers are modelled as natural numbers, with `0` standing for the
C `NULL` pointer.
-/

namespace VLC

/-- Raw pointer model: a natural number; `0` stands for the C `NULL`. -/
abbrev RawPtr := Nat

/-- The `VLC::Media` wrapper as used by `MediaList`: it only contributes its
underlying `libvlc_media_t*`, extracted by `getInternalPtr<libvlc_media_t>`. -/
structure Media where
  m_obj : RawPtr
deriving DecidableEq, Repr

/-- Modelled from the spec: the state of the external engine object
`libvlc_media_list_t` (not part of this repository).  It holds the ordered
item sequence, the read-only flag, the backing media set by
`libvlc_media_list_set_media`, the lock flag, the engine-side reference
count of each media pointer, and the list's immutable event-manager
pointer. -/
structure Engine where
  items : List RawPtr
  readonly : Bool
  backing : Option RawPtr
  locked : Bool
  refcount : RawPtr → Nat
  em : RawPtr

/-- Engine well-formedness: every media pointer stored in the list is a
real (non-`NULL`) pointer. -/
abbrev Engine.WF (e : Engine) : Prop := ∀ m ∈ e.items, m ≠ 0

/-- Modelled from the spec: `libvlc_media_list_set_media` replaces the
list's backing media (spec 4.1: "replaces the list's backing media"); the
item sequence is untouched. -/
def libvlc_media_list_set_media (e : Engine) (md : RawPtr) : Engine :=
  { e with backing := some md }

/-- Modelled from the spec: `libvlc_media_list_add_media` appends a
reference to the given media; returns 0 on success, -1 if the list is
read-only (spec 4.1 and the header's doc comment). -/
def libvlc_media_list_add_media (e : Engine) (md : RawPtr) : Engine × Int :=
  if e.readonly then (e, -1)
  else ({ e with items := e.items ++ [md] }, 0)

/-- Modelled from the spec: `libvlc_media_list_insert_media` inserts a
reference to the given media at the given position; returns 0 on success,
-1 if the list is read-only (spec 4.1 and the header's doc comment). -/
def libvlc_media_list_insert_media (e : Engine) (md : RawPtr) (pos : Int) :
    Engine × Int :=
  if e.readonly then (e, -1)
  else ({ e with items := e.items.insertIdx pos.toNat md }, 0)

/-- Modelled from the spec: `libvlc_media_list_remove_index` removes the
entry at the given zero-based position; returns 0 on success, -1 when the
list is read-only or the position is not found (spec 4.1: "failure signals
either read-only list or position not found"). -/
def libvlc_media_list_remove_index (e : Engine) (pos : Int) : Engine × Int :=
  if e.readonly then (e, -1)
  else if 0 ≤ pos ∧ pos.toNat < e.items.length then
    ({ e with items := e.items.eraseIdx pos.toNat }, 0)
  else (e, -1)

/-- Modelled from the spec: `libvlc_media_list_count` returns the current
number of items in the list. -/
def libvlc_media_list_count (e : Engine) : Int :=
  (e.items.length : Int)

/-- Modelled from the spec: `libvlc_media_list_item_at_index` returns the
media pointer at the given position after incrementing the engine's
reference count on it, or `NULL` (here `0`) when the position is out of
range (spec 4.1: "returns a retained reference to the media at the given
position, or a null result if out of range"). -/
def libvlc_media_list_item_at_index (e : Engine) (pos : Int) :
    Engine × RawPtr :=
  if h : 0 ≤ pos ∧ pos.toNat < e.items.length then
    let md := e.items.get ⟨pos.toNat, h.2⟩
    ({ e with
        refcount := fun p => if p = md then e.refcount p + 1 else e.refcount p },
      md)
  else (e, 0)

/-- Modelled from the spec: the linear search performed by
`libvlc_media_list_index_of_item`, returning the first position holding
the given pointer (spec 4.1: "linear search for the first position holding
a reference equal to the given media"). -/
def engineIndexOf (md : RawPtr) : List RawPtr → Option Nat
  | [] => none
  | x :: xs => if x = md then some 0 else (engineIndexOf md xs).map (· + 1)

/-- Modelled from the spec: `libvlc_media_list_index_of_item` returns the
first matched position, or -1 if the media is absent. -/
def libvlc_media_list_index_of_item (e : Engine) (md : RawPtr) : Int :=
  match engineIndexOf md e.items with
  | some i => (i : Int)
  | none => -1

/-- Modelled from the spec: `libvlc_media_list_is_readonly` reports
whether user-level mutation is disallowed. -/
def libvlc_media_list_is_readonly (e : Engine) : Bool :=
  e.readonly

/-- Modelled from the spec: `libvlc_media_list_lock` acquires the list's
exclusive lock. -/
def libvlc_media_list_lock (e : Engine) : Engine :=
  { e with locked := true }

/-- Modelled from the spec: `libvlc_media_list_unlock` releases the list's
exclusive lock. -/
def libvlc_media_list_unlock (e : Engine) : Engine :=
  { e with locked := false }

/-- Modelled from the spec: `libvlc_media_list_event_manager` returns the
list's immutable event-manager pointer (header: "The p_event_manager is
immutable"). -/
def libvlc_media_list_event_manager (e : Engine) : RawPtr :=
  e.em

/-- The `VLC::MediaList` wrapper state: the wrapped
`libvlc_media_list_t*` inherited from `Internal`, and the cached
`EventManagerPtr` (`m_eventManager`), a nullable shared handle modelled by
the wrapped event-manager pointer when non-null. -/
structure MediaList where
  m_obj : RawPtr
  m_eventManager : Option RawPtr
deriving DecidableEq, Repr

/-- `MediaList(Media&)`: wraps the result of `libvlc_media_subitems`; the
cached event manager starts as the null shared handle. -/
def MediaList.fromMedia (subitems : RawPtr) : MediaList :=
  { m_obj := subitems, m_eventManager := none }

/-- `MediaList(MediaDiscoverer&)`: wraps the result of
`libvlc_media_discoverer_media_list`. -/
def MediaList.fromDiscoverer (discovered : RawPtr) : MediaList :=
  { m_obj := discovered, m_eventManager := none }

/-- `MediaList(MediaLibrary&)`: wraps the result of
`libvlc_media_library_media_list`. -/
def MediaList.fromLibrary (libraryList : RawPtr) : MediaList :=
  { m_obj := libraryList, m_eventManager := none }

/-- `MediaList(Instance&)`: wraps the result of `libvlc_media_list_new`. -/
def MediaList.fromInstance (freshList : RawPtr) : MediaList :=
  { m_obj := freshList, m_eventManager := none }

/-- `operator==`: true iff both wrappers contain the same
`libvlc_media_list_t` pointer. -/
def MediaList.beq (self another : MediaList) : Bool :=
  self.m_obj == another.m_obj

/-- `MediaList::setMedia`: forwards to `libvlc_media_list_set_media`. -/
def MediaList.setMedia (self : MediaList) (e : Engine) (md : Media) :
    MediaList × Engine :=
  (self, libvlc_media_list_set_media e md.m_obj)

/-- `MediaList::addMedia`: forwards to `libvlc_media_list_add_media` and
returns its status. -/
def MediaList.addMedia (self : MediaList) (e : Engine) (md : Media) :
    MediaList × Engine × Int :=
  let r := libvlc_media_list_add_media e md.m_obj
  (self, r.1, r.2)

/-- `MediaList::insertMedia`: forwards to
`libvlc_media_list_insert_media` and returns its status. -/
def MediaList.insertMedia (self : MediaList) (e : Engine) (md : Media)
    (pos : Int) : MediaList × Engine × Int :=
  let r := libvlc_media_list_insert_media e md.m_obj pos
  (self, r.1, r.2)

/-- `MediaList::removeIndex`: forwards to
`libvlc_media_list_remove_index` and returns its status. -/
def MediaList.removeIndex (self : MediaList) (e : Engine) (pos : Int) :
    MediaList × Engine × Int :=
  let r := libvlc_media_list_remove_index e pos
  (self, r.1, r.2)

/-- `MediaList::count`: forwards to `libvlc_media_list_count`. -/
def MediaList.count (self : MediaList) (e : Engine) : MediaList × Int :=
  (self, libvlc_media_list_count e)

/-- `MediaList::itemAtIndex`: forwards to
`libvlc_media_list_item_at_index` and wraps the returned raw pointer in a
fresh `Media` shared handle (`std::make_shared<Media>(ptr, false)`), null
or not. -/
def MediaList.itemAtIndex (self : MediaList) (e : Engine) (pos : Int) :
    MediaList × Engine × Media :=
  let r := libvlc_media_list_item_at_index e pos
  (self, r.1, Media.mk r.2)

/-- `MediaList::indexOfItem`: forwards to
`libvlc_media_list_index_of_item`. -/
def MediaList.indexOfItem (self : MediaList) (e : Engine) (md : Media) :
    MediaList × Int :=
  (self, libvlc_media_list_index_of_item e md.m_obj)

/-- `MediaList::isReadonly`: forwards to
`libvlc_media_list_is_readonly`. -/
def MediaList.isReadonly (self : MediaList) (e : Engine) :
    MediaList × Bool :=
  (self, libvlc_media_list_is_readonly e)

/-- `MediaList::lock`: forwards to `libvlc_media_list_lock`. -/
def MediaList.lock (self : MediaList) (e : Engine) : MediaList × Engine :=
  (self, libvlc_media_list_lock e)

/-- `MediaList::unlock`: forwards to `libvlc_media_list_unlock`. -/
def MediaList.unlock (self : MediaList) (e : Engine) : MediaList × Engine :=
  (self, libvlc_media_list_unlock e)

/-- `MediaList::eventManager`, translated literally from the header:
```
if ( m_eventManager )
{
    libvlc_event_manager_t* obj = libvlc_media_list_event_manager( *this );
    m_eventManager = std::make_shared<EventManager>( obj );
}
return m_eventManager;
```
The branch runs only when the cache is already non-null. -/
def MediaList.eventManager (self : MediaList) (e : Engine) :
    MediaList × Option RawPtr :=
  if self.m_eventManager.isSome then
    let obj := libvlc_media_list_event_manager e
    let self' := { self with m_eventManager := some obj }
    (self', self'.m_eventManager)
  else
    (self, self.m_eventManager)

/-! ### Helper lemmas about the modelled linear search -/

/-- `engineIndexOf` returns `none` exactly when the pointer is absent. -/
theorem engineIndexOf_eq_none_iff (md : RawPtr) (l : List RawPtr) :
    engineIndexOf md l = none ↔ md ∉ l := by
  induction l with
  | nil => simp [engineIndexOf]
  | cons x xs ih =>
    by_cases hx : x = md
    · subst hx
      simp [engineIndexOf]
    · simp [engineIndexOf, hx, Option.map_eq_none, ih, Ne.symm hx]

/-- A successful `engineIndexOf` search points at the first occurrence. -/
theorem engineIndexOf_eq_some (md : RawPtr) (l : List RawPtr) (i : Nat)
    (h : engineIndexOf md l = some i) :
    l[i]? = some md ∧ ∀ j, j < i → l[j]? ≠ some md := by
  induction l generalizing i with
  | nil => simp [engineIndexOf] at h
  | cons x xs ih =>
    by_cases hx : x = md
    · subst hx
      simp [engineIndexOf] at h
      subst h
      simp
    · simp [engineIndexOf, hx] at h
      obtain ⟨k, hk, rfl⟩ := h
      obtain ⟨h1, h2⟩ := ih k hk
      refine ⟨by simpa using h1, ?_⟩
      intro j hj
      match j with
      | 0 => simpa using hx
      | j + 1 =>
        have hj' : j < k := by omega
        simpa using h2 j hj'

/-- A present pointer is found by `engineIndexOf`. -/
theorem engineIndexOf_isSome (md : RawPtr) (l : List RawPtr)
    (h : md ∈ l) : ∃ i, engineIndexOf md l = some i := by
  rcases he : engineIndexOf md l with _ | i
  · exact absurd ((engineIndexOf_eq_none_iff md l).1 he) (by simpa using h)
  · exact ⟨i, rfl⟩

/-! ### Concrete engines for witnesses -/

/-- A concrete writable engine state with two items. -/
def engA : Engine :=
  { items := [5, 7], readonly := false, backing := none, locked := false,
    refcount := fun _ => 1, em := 11 }

/-- A concrete read-only engine state with one item. -/
def engRO : Engine :=
  { items := [5], readonly := true, backing := none, locked := false,
    refcount := fun _ => 1, em := 11 }

/-! ### Claim theorems -/

/-- C1: for any `MediaList` wrapper whose event-manager cache is null (as it
is immediately after any of the four constructors), every call to
`eventManager` returns a null handle and leaves the cache null; the
notification handle is (re)constructed from the engine's event-manager
accessor only when the cache is already non-null. -/
theorem eventManager_null_cache_stays_null (e : Engine) (self : MediaList) :
    ((MediaList.fromMedia self.m_obj).m_eventManager = none ∧
      (MediaList.fromDiscoverer self.m_obj).m_eventManager = none ∧
      (MediaList.fromLibrary self.m_obj).m_eventManager = none ∧
      (MediaList.fromInstance self.m_obj).m_eventManager = none) ∧
    (self.m_eventManager = none →
      (self.eventManager e).2 = none ∧ (self.eventManager e).1 = self) ∧
    (self.m_eventManager.isSome = true →
      (self.eventManager e).2 = some (libvlc_media_list_event_manager e) ∧
      (self.eventManager e).1.m_eventManager =
        some (libvlc_media_list_event_manager e)) := by
  refine ⟨⟨rfl, rfl, rfl, rfl⟩, ?_, ?_⟩
  · intro h
    simp [MediaList.eventManager, h]
  · intro h
    simp [MediaList.eventManager, h]

/-- Witness for C1 at concrete wrappers: a null cache stays null, a
non-null cache is rebuilt from the engine accessor. -/
theorem eventManager_null_cache_stays_null_witness :
    (MediaList.mk 7 none).m_eventManager = none ∧
    ((MediaList.mk 7 none).eventManager engA).2 = none ∧
    (MediaList.mk 7 (some 3)).m_eventManager.isSome = true ∧
    ((MediaList.mk 7 (some 3)).eventManager engA).2 =
      some (libvlc_media_list_event_manager engA) :=
  ⟨rfl,
    ((eventManager_null_cache_stays_null engA (MediaList.mk 7 none)).2.1
      rfl).1,
    rfl,
    ((eventManager_null_cache_stays_null engA (MediaList.mk 7 (some 3))).2.2
      rfl).1⟩

/-- C8: `operator==` returns true iff both wrappers hold the identical
underlying resource pointer; in particular any two wrappers sharing the
same underlying pointer compare equal regardless of their cached
event-manager handles, and the comparison takes no engine state at all, so
it cannot depend on list contents. -/
theorem beq_iff_same_underlying_ptr (a b : MediaList) :
    (a.beq b = true ↔ a.m_obj = b.m_obj) ∧
    (∀ (c d : Option RawPtr) (r : RawPtr),
      (MediaList.mk r c).beq (MediaList.mk r d) = true) := by
  constructor
  · simp [MediaList.beq]
  · intro c d r
    simp [MediaList.beq]

/-- C10: every wrapper operation other than `eventManager` returns the
wrapper's own stored state (`m_obj` and `m_eventManager`) unchanged;
`operator==` (`MediaList.beq`) is a pure function of its two arguments and
by its type cannot modify any state. -/
theorem wrapper_state_frame (self : MediaList) (e : Engine) (md : Media)
    (pos : Int) :
    (self.setMedia e md).1 = self ∧
    (self.addMedia e md).1 = self ∧
    (self.insertMedia e md pos).1 = self ∧
    (self.removeIndex e pos).1 = self ∧
    (self.count e).1 = self ∧
    (self.itemAtIndex e pos).1 = self ∧
    (self.indexOfItem e md).1 = self ∧
    (self.isReadonly e).1 = self ∧
    (self.lock e).1 = self ∧
    (self.unlock e).1 = self :=
  ⟨rfl, rfl, rfl, rfl, rfl, rfl, rfl, rfl, rfl, rfl⟩

/-- C2: `itemAtIndex` hands back exactly the engine's item-at-index result;
on a well-formed engine it is the (non-null) media stored at an in-range
position, and the null pointer at an out-of-range position. -/
theorem itemAtIndex_null_iff_out_of_range (self : MediaList) (e : Engine)
    (pos : Int) (hwf : Engine.WF e) :
    (self.itemAtIndex e pos).2.2.m_obj
      = (libvlc_media_list_item_at_index e pos).2 ∧
    (0 ≤ pos ∧ pos.toNat < e.items.length →
      ∃ h : pos.toNat < e.items.length,
        (self.itemAtIndex e pos).2.2.m_obj = e.items.get ⟨pos.toNat, h⟩ ∧
        (self.itemAtIndex e pos).2.2.m_obj ≠ 0) ∧
    (¬(0 ≤ pos ∧ pos.toNat < e.items.length) →
      (self.itemAtIndex e pos).2.2.m_obj = 0) := by
  refine ⟨rfl, ?_, ?_⟩
  · intro hin
    refine ⟨hin.2, ?_, ?_⟩
    · simp [MediaList.itemAtIndex, libvlc_media_list_item_at_index,
        dif_pos hin]
    · have hmem : e.items.get ⟨pos.toNat, hin.2⟩ ∈ e.items :=
        List.get_mem _ _ _
      have hne := hwf _ hmem
      simpa [MediaList.itemAtIndex, libvlc_media_list_item_at_index,
        dif_pos hin] using hne
  · intro hout
    simp [MediaList.itemAtIndex, libvlc_media_list_item_at_index,
      dif_neg hout]

/-- Witness for C2: in the concrete writable engine, position 0 holds `5`
and position 9 is out of range. -/
theorem itemAtIndex_null_iff_out_of_range_witness :
    Engine.WF engA ∧
    ((MediaList.mk 7 none).itemAtIndex engA 0).2.2.m_obj ≠ 0 ∧
    ((MediaList.mk 7 none).itemAtIndex engA 9).2.2.m_obj = 0 := by
  have hwf : Engine.WF engA := by decide
  refine ⟨hwf, ?_, ?_⟩
  · have h := (itemAtIndex_null_iff_out_of_range (MediaList.mk 7 none)
      engA 0 hwf).2.1 (by decide)
    exact h.choose_spec.2
  · exact (itemAtIndex_null_iff_out_of_range (MediaList.mk 7 none)
      engA 9 hwf).2.2 (by decide)

/-- C3: when `addMedia` reports success (0), the count afterwards is the
count before plus one, and `indexOfItem` on the added media returns a
non-negative position. -/
theorem addMedia_success_count_and_index (self : MediaList) (e : Engine)
    (md : Media) (h : (self.addMedia e md).2.2 = 0) :
    libvlc_media_list_count (self.addMedia e md).2.1
      = libvlc_media_list_count e + 1 ∧
    0 ≤ (self.indexOfItem (self.addMedia e md).2.1 md).2 := by
  by_cases hro : e.readonly
  · simp [MediaList.addMedia, libvlc_media_list_add_media, hro] at h
  · have hitems : (self.addMedia e md).2.1.items = e.items ++ [md.m_obj] := by
      simp [MediaList.addMedia, libvlc_media_list_add_media, hro]
    constructor
    · simp [libvlc_media_list_count, hitems]
    · have hmem : md.m_obj ∈ (self.addMedia e md).2.1.items := by
        simp [hitems]
      obtain ⟨i, hi⟩ := engineIndexOf_isSome md.m_obj _ hmem
      simp [MediaList.indexOfItem, libvlc_media_list_index_of_item, hi]

/-- Witness for C3: adding media `9` to the concrete writable engine
succeeds, so the count grows and the media is found. -/
theorem addMedia_success_count_and_index_witness :
    ((MediaList.mk 7 none).addMedia engA (Media.mk 9)).2.2 = 0 ∧
    libvlc_media_list_count
        ((MediaList.mk 7 none).addMedia engA (Media.mk 9)).2.1
      = libvlc_media_list_count engA + 1 ∧
    0 ≤ ((MediaList.mk 7 none).indexOfItem
        ((MediaList.mk 7 none).addMedia engA (Media.mk 9)).2.1
        (Media.mk 9)).2 := by
  have h0 : ((MediaList.mk 7 none).addMedia engA (Media.mk 9)).2.2 = 0 := by
    simp [MediaList.addMedia, libvlc_media_list_add_media, engA]
  exact ⟨h0, addMedia_success_count_and_index (MediaList.mk 7 none) engA
    (Media.mk 9) h0⟩

/-- C6: on a read-only list, `addMedia`, `insertMedia` and `removeIndex`
all return -1 and leave the count unchanged. -/
theorem readonly_mutations_fail (self : MediaList) (e : Engine) (md : Media)
    (pos : Int) (h : (self.isReadonly e).2 = true) :
    ((self.addMedia e md).2.2 = -1 ∧
      libvlc_media_list_count (self.addMedia e md).2.1
        = libvlc_media_list_count e) ∧
    ((self.insertMedia e md pos).2.2 = -1 ∧
      libvlc_media_list_count (self.insertMedia e md pos).2.1
        = libvlc_media_list_count e) ∧
    ((self.removeIndex e pos).2.2 = -1 ∧
      libvlc_media_list_count (self.removeIndex e pos).2.1
        = libvlc_media_list_count e) := by
  have hro : e.readonly = true := by
    simpa [MediaList.isReadonly, libvlc_media_list_is_readonly] using h
  simp [MediaList.addMedia, MediaList.insertMedia, MediaList.removeIndex,
    libvlc_media_list_add_media, libvlc_media_list_insert_media,
    libvlc_media_list_remove_index, hro]

/-- Witness for C6: all three mutations fail on the concrete read-only
engine and its count stays at 1. -/
theorem readonly_mutations_fail_witness :
    ((MediaList.mk 7 none).isReadonly engRO).2 = true ∧
    ((MediaList.mk 7 none).addMedia engRO (Media.mk 9)).2.2 = -1 ∧
    ((MediaList.mk 7 none).insertMedia engRO (Media.mk 9) 0).2.2 = -1 ∧
    ((MediaList.mk 7 none).removeIndex engRO 0).2.2 = -1 := by
  have h : ((MediaList.mk 7 none).isReadonly engRO).2 = true := by
    simp [MediaList.isReadonly, libvlc_media_list_is_readonly, engRO]
  have hall := readonly_mutations_fail (MediaList.mk 7 none) engRO
    (Media.mk 9) 0 h
  exact ⟨h, hall.1.1, hall.2.1.1, hall.2.2.1⟩

/-- C7: at an in-range position, `itemAtIndex` bumps the engine's
reference count of the returned media by exactly one and leaves every
other reference count unchanged. -/
theorem itemAtIndex_retains (self : MediaList) (e : Engine) (pos : Int)
    (h0 : 0 ≤ pos) (h1 : pos.toNat < e.items.length) :
    (self.itemAtIndex e pos).2.1.refcount
        ((self.itemAtIndex e pos).2.2.m_obj)
      = e.refcount ((self.itemAtIndex e pos).2.2.m_obj) + 1 ∧
    ∀ q : RawPtr, q ≠ (self.itemAtIndex e pos).2.2.m_obj →
      (self.itemAtIndex e pos).2.1.refcount q = e.refcount q := by
  have hin : 0 ≤ pos ∧ pos.toNat < e.items.length := ⟨h0, h1⟩
  constructor
  · simp [MediaList.itemAtIndex, libvlc_media_list_item_at_index,
      dif_pos hin]
  · intro q hq
    have hq' : q ≠ e.items[pos.toNat] := by
      simpa [MediaList.itemAtIndex, libvlc_media_list_item_at_index,
        dif_pos hin] using hq
    simp [MediaList.itemAtIndex, libvlc_media_list_item_at_index,
      dif_pos hin, hq']

/-- Witness for C7: reading position 0 of the concrete writable engine
raises the reference count of media `5` from 1 to 2 and leaves media `7`
at 1. -/
theorem itemAtIndex_retains_witness :
    0 ≤ (0 : Int) ∧ (0 : Int).toNat < engA.items.length ∧
    ((MediaList.mk 7 none).itemAtIndex engA 0).2.1.refcount
        (((MediaList.mk 7 none).itemAtIndex engA 0).2.2.m_obj)
      = engA.refcount
          (((MediaList.mk 7 none).itemAtIndex engA 0).2.2.m_obj) + 1 ∧
    ((MediaList.mk 7 none).itemAtIndex engA 0).2.1.refcount 7
      = engA.refcount 7 := by
  have h := itemAtIndex_retains (MediaList.mk 7 none) engA 0 (by decide)
    (by decide)
  refine ⟨by decide, by decide, h.1, h.2 7 ?_⟩
  simp [MediaList.itemAtIndex, libvlc_media_list_item_at_index, engA]

/-- C4: on a non-read-only list, inserting media at a valid position and
then reading that position back yields the identical underlying media
pointer, and the insertion reports success. -/
theorem insertMedia_then_itemAtIndex (self : MediaList) (e : Engine)
    (md : Media) (pos : Int) (hro : e.readonly = false) (h0 : 0 ≤ pos)
    (hle : pos.toNat ≤ e.items.length) :
    (self.insertMedia e md pos).2.2 = 0 ∧
    (self.itemAtIndex (self.insertMedia e md pos).2.1 pos).2.2.m_obj
      = md.m_obj := by
  have hitems : (self.insertMedia e md pos).2.1.items
      = e.items.insertIdx pos.toNat md.m_obj := by
    simp [MediaList.insertMedia, libvlc_media_list_insert_media, hro]
  have hstat : (self.insertMedia e md pos).2.2 = 0 := by
    simp [MediaList.insertMedia, libvlc_media_list_insert_media, hro]
  have hlen : (e.items.insertIdx pos.toNat md.m_obj).length
      = e.items.length + 1 :=
    List.length_insertIdx pos.toNat e.items hle
  have hin : 0 ≤ pos ∧
      pos.toNat < (List.insertIdx pos.toNat md.m_obj e.items).length := by
    rw [hlen]
    exact ⟨h0, by omega⟩
  have hget := List.getElem_insertIdx_self e.items md.m_obj pos.toNat hle
  refine ⟨hstat, ?_⟩
  simp only [MediaList.itemAtIndex, libvlc_media_list_item_at_index, hitems]
  rw [dif_pos hin]
  simpa [hitems] using hget

/-- Witness for C4: inserting media `9` at position 1 of the concrete
writable engine succeeds and reading position 1 back gives `9`. -/
theorem insertMedia_then_itemAtIndex_witness :
    engA.readonly = false ∧ 0 ≤ (1 : Int) ∧
    (1 : Int).toNat ≤ engA.items.length ∧
    ((MediaList.mk 7 none).insertMedia engA (Media.mk 9) 1).2.2 = 0 ∧
    ((MediaList.mk 7 none).itemAtIndex
        ((MediaList.mk 7 none).insertMedia engA (Media.mk 9) 1).2.1
        1).2.2.m_obj = 9 := by
  have h := insertMedia_then_itemAtIndex (MediaList.mk 7 none) engA
    (Media.mk 9) 1 (by decide) (by decide) (by decide)
  exact ⟨by decide, by decide, by decide, h.1, h.2⟩

/-- C5 counterexample: position 0 is valid (in range) on the concrete
read-only engine `engRO`, yet `removeIndex 0` returns -1 rather than the
success the claim promises for every `MediaList`. -/
theorem removeIndex_readonly_counterexample :
    0 ≤ (0 : Int) ∧ (0 : Int).toNat < engRO.items.length ∧
    ((MediaList.mk 7 none).removeIndex engRO 0).2.2 = -1 := by
  refine ⟨by decide, by decide, ?_⟩
  simp [MediaList.removeIndex, libvlc_media_list_remove_index, engRO]

/-- C5 (amended): on a non-read-only list, `removeIndex` at a valid
position returns success and decreases the count by exactly one; on any
list, `removeIndex` at an out-of-range position returns -1 and leaves the
count unchanged. -/
theorem removeIndex_count (self : MediaList) (e : Engine) (pos : Int) :
    (e.readonly = false → 0 ≤ pos → pos.toNat < e.items.length →
      (self.removeIndex e pos).2.2 = 0 ∧
      libvlc_media_list_count (self.removeIndex e pos).2.1
        = libvlc_media_list_count e - 1) ∧
    (¬(0 ≤ pos ∧ pos.toNat < e.items.length) →
      (self.removeIndex e pos).2.2 = -1 ∧
      libvlc_media_list_count (self.removeIndex e pos).2.1
        = libvlc_media_list_count e) := by
  constructor
  · intro hro h0 h1
    have hin : 0 ≤ pos ∧ pos.toNat < e.items.length := ⟨h0, h1⟩
    have hlen : (e.items.eraseIdx pos.toNat).length + 1 = e.items.length :=
      List.length_eraseIdx_add_one h1
    constructor
    · simp [MediaList.removeIndex, libvlc_media_list_remove_index, hro,
        if_pos hin]
    · simp [MediaList.removeIndex, libvlc_media_list_remove_index, hro,
        if_pos hin, libvlc_media_list_count]
      omega
  · intro hout
    by_cases hro : e.readonly
    · simp [MediaList.removeIndex, libvlc_media_list_remove_index, hro,
        libvlc_media_list_count]
    · simp [MediaList.removeIndex, libvlc_media_list_remove_index, hro,
        if_neg hout, libvlc_media_list_count]

/-- Witness for C5 (amended): removing position 0 of the concrete writable
engine succeeds and drops the count from 2 to 1; removing position 9
fails and keeps the count at 2. -/
theorem removeIndex_count_witness :
    engA.readonly = false ∧
    ((MediaList.mk 7 none).removeIndex engA 0).2.2 = 0 ∧
    libvlc_media_list_count ((MediaList.mk 7 none).removeIndex engA 0).2.1
      = libvlc_media_list_count engA - 1 ∧
    ((MediaList.mk 7 none).removeIndex engA 9).2.2 = -1 ∧
    libvlc_media_list_count ((MediaList.mk 7 none).removeIndex engA 9).2.1
      = libvlc_media_list_count engA := by
  have h1 := (removeIndex_count (MediaList.mk 7 none) engA 0).1 (by decide)
    (by decide) (by decide)
  have h2 := (removeIndex_count (MediaList.mk 7 none) engA 9).2 (by decide)
  exact ⟨by decide, h1.1, h1.2, h2.1, h2.2⟩

/-- C9: `indexOfItem` returns -1 when the media is absent, and when the
media is present it returns the first (lowest) position holding it: the
entry there is the media and no earlier entry is. -/
theorem indexOfItem_first_match (self : MediaList) (e : Engine)
    (md : Media) :
    (md.m_obj ∉ e.items → (self.indexOfItem e md).2 = -1) ∧
    (md.m_obj ∈ e.items →
      ∃ i : Nat, (self.indexOfItem e md).2 = (i : Int) ∧
        e.items[i]? = some md.m_obj ∧
        ∀ j, j < i → e.items[j]? ≠ some md.m_obj) := by
  constructor
  · intro hab
    have hnone : engineIndexOf md.m_obj e.items = none :=
      (engineIndexOf_eq_none_iff _ _).2 hab
    simp [MediaList.indexOfItem, libvlc_media_list_index_of_item, hnone]
  · intro hmem
    obtain ⟨i, hi⟩ := engineIndexOf_isSome md.m_obj e.items hmem
    obtain ⟨h1, h2⟩ := engineIndexOf_eq_some md.m_obj e.items i hi
    refine ⟨i, ?_, h1, h2⟩
    simp [MediaList.indexOfItem, libvlc_media_list_index_of_item, hi]

/-- Witness for C9: in the concrete writable engine, media `9` was never
added and is reported at -1, while media `7` is present and found at a
position whose entry is `7`. -/
theorem indexOfItem_first_match_witness :
    (9 : RawPtr) ∉ engA.items ∧
    ((MediaList.mk 7 none).indexOfItem engA (Media.mk 9)).2 = -1 ∧
    (7 : RawPtr) ∈ engA.items ∧
    (∃ i : Nat, ((MediaList.mk 7 none).indexOfItem engA (Media.mk 7)).2
        = (i : Int) ∧ engA.items[i]? = some 7) := by
  have hab : (9 : RawPtr) ∉ engA.items := by decide
  have hmem : (7 : RawPtr) ∈ engA.items := by decide
  have h1 := (indexOfItem_first_match (MediaList.mk 7 none) engA
    (Media.mk 9)).1 hab
  obtain ⟨i, hi, hget, _⟩ := (indexOfItem_first_match (MediaList.mk 7 none)
    engA (Media.mk 7)).2 hmem
  exact ⟨hab, h1, hmem, i, hi, hget⟩

end VLC
